import Mathlib

/-!
Shallow embedding of `narps_open/runner.py` (class `PipelineRunner`) and the
parts of its collaborators that the verified properties need.

External collaborators (`narps_open.pipelines.implemented_pipelines`,
`get_all_participants`, `get_participants`, `get_participants_subset`,
`Configuration`, `nipype.Workflow`, the per-team pipeline classes) are not part
of the runner's source; they are modelled as parameters: the participant
universe and eligible pool as lists of strings, the registry as an association
list, the random source of `random.choices` as a draw oracle, pipelines as a
record of their realized stages and expected-output lists, and the filesystem
as a predicate on paths.
-/

namespace Narps

/-- A raw subject identifier as accepted by the `subjects` setter: Python
callers pass either a decimal string or an integer (`int()` coerces both). -/
inductive RawID where
  | str (s : String)
  | num (n : Nat)
deriving DecidableEq, Repr

/-- Python `str.zfill(3)` on a digit string: left-pad with zeros to width 3. -/
def zfill3 (s : String) : String :=
  if s.length ≥ 3 then s else String.mk (List.replicate (3 - s.length) '0') ++ s

/-- Decimal parser modelling Python `int()` on the digit-only strings the
runner receives (`int()` also strips whitespace and accepts a sign and
underscores; those inputs do not occur here). -/
def pyInt? (s : String) : Option Nat :=
  if s.data ≠ [] ∧ s.data.all (fun c => c.isDigit) then
    some (s.data.foldl (fun n c => 10 * n + (c.toNat - 48)) 0)
  else none

/-- Embeds `str(int(subject_id)).zfill(3)` from `runner.py` line 48/52:
parse the raw identifier as a (nonnegative decimal) integer and zero-pad its
decimal rendering to width 3. `none` models the `ValueError` Python `int()`
raises on a non-numeric string. -/
def canonicalize : RawID → Option String
  | .str s => (pyInt? s).map (fun n => zfill3 (toString n))
  | .num n => some (zfill3 (toString n))

/-- Embeds `list(dict.fromkeys(xs))` (runner.py line 51): remove duplicates
keeping the first occurrence of each element, in order. -/
def dedupFirst (l : List String) : List String :=
  l.foldl (fun acc x => if x ∈ acc then acc else acc ++ [x]) []

/-- The runner's error conditions, one constructor per `raise` site of
`runner.py` (the spec's names; the Python code raises `AttributeError`,
`KeyError` and `NotImplementedError` respectively). -/
inductive RunnerError where
  /-- `AttributeError(f'Subject ID {subject_id} is not valid')`, line 49. -/
  | invalidSubject (id : RawID)
  /-- `ValueError` from `int()` on a non-numeric string, line 48. -/
  | valueError (id : RawID)
  /-- `KeyError(f'Wrong team ID : ...')`, line 78. -/
  | unknownTeam (id : String)
  /-- `NotImplementedError(f'Pipeline not implemented for team : ...')`, line 81. -/
  | notImplementedTeam (id : String)
  /-- `AttributeError('first_level_only and group_level_only cannot both be True')`, line 102. -/
  | invalidScope
  /-- `AttributeError('Workflow must be of type nipype.Workflow')`, lines 126/134. -/
  | invalidWorkUnit
deriving DecidableEq, Repr

/-- The validation loop of the `subjects` setter (runner.py lines 46-49):
for each raw identifier, raise if it does not parse or if its canonical form
is not among `allParticipants`. -/
def checkSubjects (allParticipants : List String) : List RawID → Except RunnerError Unit
  | [] => .ok ()
  | x :: xs =>
    match canonicalize x with
    | none => .error (.valueError x)
    | some c =>
      if c ∈ allParticipants then checkSubjects allParticipants xs
      else .error (.invalidSubject x)

/-- The `subjects` setter (runner.py lines 42-52): validate every raw
identifier against the full participant universe, then store the canonical
forms with duplicates removed (first occurrence kept). The `filterMap` is
exact here: after `checkSubjects` succeeds every identifier canonicalizes. -/
def subjectsSetter (allParticipants : List String) (value : List RawID) :
    Except RunnerError (List String) :=
  match checkSubjects allParticipants value with
  | .error e => .error e
  | .ok _ => .ok (dedupFirst (value.filterMap canonicalize))

/-- State transition of the `subjects` setter on the pipeline's
`subject_list`: the `raise` in the validation loop (line 49) happens before
the assignment on line 51, so on error the prior list is kept. -/
def setSubjects (allParticipants : List String) (prior : List String)
    (value : List RawID) : List String × Option RunnerError :=
  match subjectsSetter allParticipants value with
  | .ok l => (l, none)
  | .error e => (prior, some e)

/-- Embeds `random.choices(population, k)` : `k` independent draws **with
replacement** from `population`. The randomness is an oracle `draw`; draw `i`
picks index `draw i % population.length`. -/
def choices (population : List String) (k : Nat) (draw : Nat → Nat) : List String :=
  (List.range k).map (fun i => population.getD (draw i % population.length) "")

/-- The `random_nb_subjects` setter (runner.py lines 54-58): store
`choices(get_participants(team_id), k = value)` directly as the subject list.
`pool` stands for the eligible pool `get_participants(team_id)`. -/
def randomNbSubjectsSetter (pool : List String) (value : Nat) (draw : Nat → Nat) :
    List String :=
  choices pool value draw

/-- An object returned inside a stage realization: either an actual
`nipype.Workflow` (identified by an opaque id) or any other object, which
fails the `isinstance(..., Workflow)` checks on runner.py lines 125/133. -/
inductive WorkUnit where
  | workflow (id : Nat)
  | other (id : Nat)
deriving DecidableEq, Repr

/-- The `isinstance(w, Workflow)` test. -/
def WorkUnit.isWorkflow : WorkUnit → Bool
  | .workflow _ => true
  | .other _ => false

/-- A realized stage as produced by a pipeline's `get_*` method: `None`, a
single object, or a list of objects (runner.py lines 121-123 branch on
exactly these shapes). -/
inductive Stage where
  | absent
  | single (w : WorkUnit)
  | many (ws : List WorkUnit)
deriving DecidableEq, Repr

/-- The execution strategy passed to `Workflow.run`: plain `run()` or
`run('MultiProc', plugin_args={'n_procs': nbProcs})` (runner.py lines
128-131 and 136-139). -/
inductive RunStrategy where
  | sequential
  | multiProc (nProcs : Nat)
deriving DecidableEq, Repr

/-- An observable execution event: workflow `id` was run with a strategy. -/
abbrev Event := Nat × RunStrategy

/-- Strategy selection (runner.py lines 128/136): MultiProc capped at
`nbProcs` workers when `nb_procs > 1`, plain sequential run otherwise. -/
def runStrategy (nbProcs : Nat) : RunStrategy :=
  if nbProcs > 1 then .multiProc nbProcs else .sequential

/-- The event a unit of work contributes when it is run, `none` for a
non-Workflow object (which is never run). -/
def eventOf (nbProcs : Nat) : WorkUnit → Option Event
  | .workflow id => some (id, runStrategy nbProcs)
  | .other _ => none

/-- Events contributed by a list of units that all pass the type check. -/
def eventsOf (nbProcs : Nat) (ws : List WorkUnit) : List Event :=
  ws.filterMap (eventOf nbProcs)

/-- The inner loop over a list-valued stage (runner.py lines 124-131): each
element is type-checked and, if it passes, run immediately; the first
non-Workflow element raises, after the elements before it have already run.
Returns the trace of runs performed before returning or raising. -/
def dispatchUnits (nbProcs : Nat) : List WorkUnit → List Event × Option RunnerError
  | [] => ([], none)
  | w :: ws =>
    match w with
    | .other _ => ([], some .invalidWorkUnit)
    | .workflow id =>
      let rest := dispatchUnits nbProcs ws
      ((id, runStrategy nbProcs) :: rest.1, rest.2)

/-- One iteration of the launch loop (runner.py lines 120-139): skip `None`,
iterate over a list, else type-check and run the single object. -/
def dispatchStage (nbProcs : Nat) : Stage → List Event × Option RunnerError
  | .absent => ([], none)
  | .single w =>
    match w with
    | .other _ => ([], some .invalidWorkUnit)
    | .workflow id => ([(id, runStrategy nbProcs)], none)
  | .many ws => dispatchUnits nbProcs ws

/-- The full launch loop over the assembled workflow list: stages run in
order, and an exception in one stage aborts the remaining stages. Returns
the whole trace of runs performed and the first error, if any. -/
def dispatch (nbProcs : Nat) : List Stage → List Event × Option RunnerError
  | [] => ([], none)
  | s :: rest =>
    let r := dispatchStage nbProcs s
    match r.2 with
    | some e => (r.1, some e)
    | none =>
      let r2 := dispatch nbProcs rest
      (r.1 ++ r2.1, r2.2)

/-- The parts of a per-team pipeline instance the runner reads: the four
stage realizations (`get_preprocessing`, `get_run_level_analysis`,
`get_subject_level_analysis`, `get_group_level_analysis`) and the four
expected-output lists (`get_*_outputs`). -/
structure PipelineModel where
  preprocessing : Stage
  runLevel : Stage
  subjectLevel : Stage
  groupLevel : Stage
  preprocessingOutputs : List String
  runLevelOutputs : List String
  subjectLevelOutputs : List String
  groupLevelOutputs : List String
deriving DecidableEq, Repr

/-- Workflow-list assembly inside `start` (runner.py lines 104-115): the
first-level stages unless `group_level_only`, then the group-level stage
unless `first_level_only`. -/
def buildWorkflowList (p : PipelineModel) (firstLevelOnly groupLevelOnly : Bool) :
    List Stage :=
  (if !groupLevelOnly then [p.preprocessing, p.runLevel, p.subjectLevel] else []) ++
  (if !firstLevelOnly then [p.groupLevel] else [])

/-- The `start` method (runner.py lines 89-139): reject contradictory scope
flags before assembling anything, then assemble the workflow list and launch
it with the configured number of processes. -/
def runnerStart (p : PipelineModel) (nbProcs : Nat)
    (firstLevelOnly groupLevelOnly : Bool) : List Event × Option RunnerError :=
  if firstLevelOnly && groupLevelOnly then ([], some .invalidScope)
  else dispatch nbProcs (buildWorkflowList p firstLevelOnly groupLevelOnly)

/-- Completion audit core (runner.py lines 147 and 153): the expected files
that do not exist, `isfile` standing for the filesystem. -/
def missingFiles (isfile : String → Bool) (files : List String) : List String :=
  files.filter (fun f => !isfile f)

/-- `get_missing_first_level_outputs` (runner.py lines 141-147):
preprocessing, run-level and subject-level expected outputs, concatenated,
filtered to those absent. -/
def getMissingFirstLevelOutputs (p : PipelineModel) (isfile : String → Bool) :
    List String :=
  missingFiles isfile
    (p.preprocessingOutputs ++ p.runLevelOutputs ++ p.subjectLevelOutputs)

/-- `get_missing_group_level_outputs` (runner.py lines 149-153). -/
def getMissingGroupLevelOutputs (p : PipelineModel) (isfile : String → Bool) :
    List String :=
  missingFiles isfile p.groupLevelOutputs

/-- A constructed pipeline instance: the registry names the class that was
instantiated (runner.py lines 84-87 import the team's module and call the
named class). -/
structure PipelineInstance where
  className : String
deriving DecidableEq, Repr

/-- The runner state the `team_id` setter touches: the stored team id and
the current pipeline instance (`None` right after `__init__` sets
`self._pipeline = None`). -/
structure RunnerState where
  team_id : String
  pipeline : Option PipelineInstance
deriving DecidableEq, Repr

/-- The `team_id` setter (runner.py lines 71-87). `registry` stands for the
`implemented_pipelines` dict of `narps_open.pipelines`: keys are team ids,
values the implementing class name or `None` when unimplemented. The setter
stores the new id first (line 74), then raises `KeyError` for an unknown id
(line 78) or `NotImplementedError` for an unimplemented one (line 81), and
only otherwise replaces the pipeline with a fresh instance (line 87). -/
def teamIdSetter (registry : List (String × Option String)) (st : RunnerState)
    (value : String) : RunnerState × Option RunnerError :=
  let st1 : RunnerState := { st with team_id := value }
  match registry.lookup value with
  | none => (st1, some (.unknownTeam value))
  | some none => (st1, some (.notImplementedTeam value))
  | some (some className) =>
    ({ st1 with pipeline := some ⟨className⟩ }, none)

/-- `PipelineRunner.__init__` (runner.py lines 24-30): set `_pipeline` to
`None`, then run the `team_id` property setter. -/
def runnerInit (registry : List (String × Option String)) (teamId : String) :
    RunnerState × Option RunnerError :=
  teamIdSetter registry { team_id := "", pipeline := none } teamId

lemma dedupFirst_go_nodup (l : List String) :
    ∀ acc : List String, acc.Nodup →
      (l.foldl (fun acc x => if x ∈ acc then acc else acc ++ [x]) acc).Nodup := by
  induction l with
  | nil => intro acc h; simpa using h
  | cons y ys ih =>
    intro acc h
    simp only [List.foldl_cons]
    apply ih
    by_cases hy : y ∈ acc
    · simpa [hy] using h
    · simp [hy, List.nodup_append, h]

lemma dedupFirst_go_mem (a : String) (l : List String) :
    ∀ acc : List String,
      (a ∈ l.foldl (fun acc x => if x ∈ acc then acc else acc ++ [x]) acc ↔
        a ∈ acc ∨ a ∈ l) := by
  induction l with
  | nil => intro acc; simp
  | cons y ys ih =>
    intro acc
    simp only [List.foldl_cons]
    rw [ih]
    by_cases hy : y ∈ acc
    · simp only [hy, if_pos, List.mem_cons]
      constructor
      · rintro (h | h)
        · exact Or.inl h
        · exact Or.inr (Or.inr h)
      · rintro (h | h | h)
        · exact Or.inl h
        · exact Or.inl (h ▸ hy)
        · exact Or.inr h
    · simp only [hy, if_neg, not_false_iff, List.mem_append, List.mem_singleton,
        List.mem_cons]
      tauto

lemma dedupFirst_go_sublist (l : List String) :
    ∀ acc pre : List String, acc.Sublist pre →
      (l.foldl (fun acc x => if x ∈ acc then acc else acc ++ [x]) acc).Sublist
        (pre ++ l) := by
  induction l with
  | nil => intro acc pre h; simpa using h
  | cons y ys ih =>
    intro acc pre h
    simp only [List.foldl_cons]
    have step : (if y ∈ acc then acc else acc ++ [y]).Sublist (pre ++ [y]) := by
      by_cases hy : y ∈ acc
      · simp only [hy, if_pos]
        exact h.trans (List.sublist_append_left pre [y])
      · simp only [hy, if_neg, not_false_iff]
        exact h.append (List.Sublist.refl [y])
    have := ih _ (pre ++ [y]) step
    simpa [List.append_assoc] using this

/-- `dedupFirst` yields a list with no duplicates. -/
lemma dedupFirst_nodup (l : List String) : (dedupFirst l).Nodup :=
  dedupFirst_go_nodup l [] List.nodup_nil

/-- `dedupFirst` keeps exactly the elements of its input. -/
lemma mem_dedupFirst (a : String) (l : List String) : a ∈ dedupFirst l ↔ a ∈ l := by
  unfold dedupFirst
  rw [dedupFirst_go_mem]
  simp

/-- `dedupFirst` preserves the relative order of its input. -/
lemma dedupFirst_sublist (l : List String) : (dedupFirst l).Sublist l := by
  have := dedupFirst_go_sublist l [] [] (List.Sublist.refl [])
  simpa using this

/-- When every raw identifier canonicalizes into the universe, the
validation loop of the `subjects` setter passes. -/
lemma checkSubjects_ok (univ : List String) (value : List RawID)
    (h : ∀ x ∈ value, ∃ c, canonicalize x = some c ∧ c ∈ univ) :
    checkSubjects univ value = .ok () := by
  induction value with
  | nil => rfl
  | cons x xs ih =>
    obtain ⟨c, hc, hmem⟩ := h x (List.mem_cons_self x xs)
    have hrest := ih (fun y hy => h y (List.mem_cons_of_mem x hy))
    simp [checkSubjects, hc, hmem, hrest]

/-- When every raw identifier parses and at least one canonical form is
outside the universe, the validation loop raises on some identifier. -/
lemma checkSubjects_error (univ : List String) (value : List RawID)
    (hall : ∀ x ∈ value, (canonicalize x).isSome)
    (hbad : ∃ x ∈ value, ∃ c, canonicalize x = some c ∧ c ∉ univ) :
    ∃ y, checkSubjects univ value = .error (.invalidSubject y) := by
  induction value with
  | nil => simp at hbad
  | cons x xs ih =>
    obtain ⟨c, hc⟩ := Option.isSome_iff_exists.mp (hall x (List.mem_cons_self x xs))
    by_cases hmem : c ∈ univ
    · have hbad2 : ∃ y ∈ xs, ∃ d, canonicalize y = some d ∧ d ∉ univ := by
        obtain ⟨y, hy, d, hd, hdu⟩ := hbad
        rcases List.mem_cons.mp hy with rfl | hy2
        · rw [hc] at hd
          exact absurd (Option.some.inj hd ▸ hmem) hdu
        · exact ⟨y, hy2, d, hd, hdu⟩
      obtain ⟨y, hy⟩ := ih (fun z hz => hall z (List.mem_cons_of_mem x hz)) hbad2
      refine ⟨y, ?_⟩
      simpa [checkSubjects, hc, hmem] using hy
    · exact ⟨x, by simp [checkSubjects, hc, hmem]⟩

/-- C4: for every sequence of raw subject identifiers all of which
canonicalize (parse as integer, zero-pad to width 3) into the full
participant universe, explicit cohort selection succeeds and sets the cohort
to the canonical forms with duplicates removed, keeping first-occurrence
order (no duplicates, an order-preserving subsequence of the canonical forms
containing exactly them); in particular selecting `["1","001",1]` yields the
single-element cohort `["001"]`, and `[2,1,2]` yields `["002","001"]`. -/
theorem explicit_selection_canonicalizes_and_dedups :
    (∀ (univ prior : List String) (value : List RawID),
      (∀ x ∈ value, ∃ c, canonicalize x = some c ∧ c ∈ univ) →
      (setSubjects univ prior value).2 = none ∧
      (setSubjects univ prior value).1 = dedupFirst (value.filterMap canonicalize) ∧
      (setSubjects univ prior value).1.Nodup ∧
      (setSubjects univ prior value).1.Sublist (value.filterMap canonicalize) ∧
      (∀ f, f ∈ (setSubjects univ prior value).1 ↔ f ∈ value.filterMap canonicalize)) ∧
    setSubjects ["001", "002"] [] [.str "1", .str "001", .num 1] = (["001"], none) ∧
    setSubjects ["001", "002"] [] [.num 2, .num 1, .num 2] = (["002", "001"], none) := by
  refine ⟨?_, by decide, by decide⟩
  intro univ prior value h
  have hok := checkSubjects_ok univ value h
  have hset : setSubjects univ prior value =
      (dedupFirst (value.filterMap canonicalize), none) := by
    simp [setSubjects, subjectsSetter, hok]
  rw [hset]
  exact ⟨rfl, rfl, dedupFirst_nodup _, dedupFirst_sublist _,
    fun f => mem_dedupFirst f _⟩

/-- Witness for C4 at a concrete input: universe `["001","002"]`, prior
cohort `["002"]`, selection `["1","001",1]`. -/
theorem explicit_selection_canonicalizes_and_dedups_witness :
    (setSubjects ["001", "002"] ["002"] [.str "1", .str "001", .num 1]).2 = none ∧
    (setSubjects ["001", "002"] ["002"] [.str "1", .str "001", .num 1]).1 =
      dedupFirst ([RawID.str "1", .str "001", .num 1].filterMap canonicalize) :=
  have h := (explicit_selection_canonicalizes_and_dedups.1
    ["001", "002"] ["002"] [.str "1", .str "001", .num 1] (by decide))
  ⟨h.1, h.2.1⟩

/-- C5: for every sequence of raw subject identifiers (all parseable)
containing at least one identifier whose canonical form is outside the
participant universe, explicit cohort selection raises the invalid-subject
error and leaves the prior cohort unchanged. -/
theorem invalid_subject_leaves_cohort_unchanged
    (univ prior : List String) (value : List RawID)
    (hall : ∀ x ∈ value, (canonicalize x).isSome)
    (hbad : ∃ x ∈ value, ∃ c, canonicalize x = some c ∧ c ∉ univ) :
    ∃ y, setSubjects univ prior value = (prior, some (.invalidSubject y)) := by
  obtain ⟨y, hy⟩ := checkSubjects_error univ value hall hbad
  exact ⟨y, by simp [setSubjects, subjectsSetter, hy]⟩

/-- Witness for C5 at a concrete input: universe `["001"]`, prior cohort
`["001"]`, selection `["5"]`. -/
theorem invalid_subject_leaves_cohort_unchanged_witness :
    ∃ y, setSubjects ["001"] ["001"] [RawID.str "5"] =
      (["001"], some (.invalidSubject y)) :=
  invalid_subject_leaves_cohort_unchanged ["001"] ["001"] [RawID.str "5"]
    (by decide) (by decide)

/-- C2 counterexample: the uniqueness invariant is not preserved by random
selection. With eligible pool `["001"]`, drawing 2 subjects with replacement
(any draw oracle; here the constant one) stores `["001","001"]` — a subject
list with a duplicate — as the cohort. -/
theorem random_selection_stores_duplicates :
    randomNbSubjectsSetter ["001"] 2 (fun _ => 0) = ["001", "001"] ∧
    ¬ (randomNbSubjectsSetter ["001"] 2 (fun _ => 0)).Nodup := by
  constructor
  · decide
  · intro h
    rw [show randomNbSubjectsSetter ["001"] 2 (fun _ => 0) = ["001", "001"] from by decide] at h
    simp at h

/-- C2 amended: the cohort invariant (unique SubjectIDs, duplicates
collapsed keeping first-occurrence order) is established by explicit
selection; random selection of size `k` draws with replacement from the
eligible pool, so its result is only guaranteed to be drawn from the pool —
it may contain duplicate SubjectIDs (see the counterexample). -/
theorem cohort_invariant_explicit_only :
    (∀ (univ prior : List String) (value : List RawID) (l : List String),
      setSubjects univ prior value = (l, none) → l.Nodup) ∧
    (∀ (pool : List String) (k : Nat) (draw : Nat → Nat), pool ≠ [] →
      ∀ s ∈ randomNbSubjectsSetter pool k draw, s ∈ pool) := by
  constructor
  · intro univ prior value l h
    unfold setSubjects at h
    cases hss : subjectsSetter univ value with
    | error e => rw [hss] at h; simp at h
    | ok l2 =>
      rw [hss] at h
      have hl : l = l2 := by simpa using (congrArg Prod.fst h).symm
      unfold subjectsSetter at hss
      cases hcs : checkSubjects univ value with
      | error e => rw [hcs] at hss; simp at hss
      | ok u =>
        rw [hcs] at hss
        have : l2 = dedupFirst (value.filterMap canonicalize) := by
          simpa using (Except.ok.inj hss).symm
        rw [hl, this]
        exact dedupFirst_nodup _
  · intro pool k draw hpool s hs
    unfold randomNbSubjectsSetter choices at hs
    obtain ⟨i, _, hi⟩ := List.mem_map.mp hs
    have hlen : 0 < pool.length := List.length_pos.mpr hpool
    have hlt : draw i % pool.length < pool.length := Nat.mod_lt _ hlen
    rw [← hi, List.getD_eq_getElem pool "" hlt]
    exact List.getElem_mem hlt

/-- Witness for C2 amended at concrete inputs: explicit selection of
`["1","001"]` against universe `["001"]` yields a duplicate-free cohort, and
a 3-draw random selection from pool `["001","002"]` stays inside the pool. -/
theorem cohort_invariant_explicit_only_witness :
    (setSubjects ["001"] [] [RawID.str "1", RawID.str "001"]).1.Nodup ∧
    ∀ s ∈ randomNbSubjectsSetter ["001", "002"] 3 (fun i => i), s ∈ ["001", "002"] :=
  ⟨cohort_invariant_explicit_only.1 ["001"] [] [RawID.str "1", RawID.str "001"]
      (setSubjects ["001"] [] [RawID.str "1", RawID.str "001"]).1 (by decide),
    cohort_invariant_explicit_only.2 ["001", "002"] 3 (fun i => i) (by decide)⟩

/-- Running a list of units stops at the first non-Workflow element: the
conforming elements before it have run, nothing at or after it runs, and the
invalid-work-unit error is raised. -/
lemma dispatchUnits_first_bad (nbProcs : Nat) (pre post : List WorkUnit)
    (bad : WorkUnit) (hpre : ∀ w ∈ pre, w.isWorkflow = true)
    (hbad : bad.isWorkflow = false) :
    dispatchUnits nbProcs (pre ++ bad :: post) =
      (eventsOf nbProcs pre, some .invalidWorkUnit) := by
  induction pre with
  | nil =>
    cases bad with
    | workflow id => simp [WorkUnit.isWorkflow] at hbad
    | other id => simp [dispatchUnits, eventsOf]
  | cons w ws ih =>
    cases w with
    | other id =>
      have := hpre (.other id) (List.mem_cons_self _ _)
      simp [WorkUnit.isWorkflow] at this
    | workflow id =>
      have hrest := ih (fun u hu => hpre u (List.mem_cons_of_mem _ hu))
      simp [dispatchUnits, hrest, eventsOf, eventOf]

/-- C1 counterexample: a stage that is the list
`[Workflow 0, non-Workflow 1]` fails with the invalid-work-unit error, but
an element of that stage (workflow 0) has been executed before the failure —
the trace is not empty. -/
theorem dispatch_runs_elements_before_invalid :
    dispatch 1 [Stage.many [WorkUnit.workflow 0, WorkUnit.other 1]] =
      ([(0, RunStrategy.sequential)], some RunnerError.invalidWorkUnit) ∧
    (dispatch 1 [Stage.many [WorkUnit.workflow 0, WorkUnit.other 1]]).1 ≠ [] := by
  constructor
  · decide
  · intro h
    rw [show dispatch 1 [Stage.many [WorkUnit.workflow 0, WorkUnit.other 1]] =
      ([(0, RunStrategy.sequential)], some RunnerError.invalidWorkUnit) from by decide] at h
    simp at h

/-- C1 amended: for every stage that is a list of work units containing at
least one element that is not an executable workflow graph, dispatch fails
with the invalid-work-unit error when it reaches the first such element; the
conforming elements before it are executed (and only those), and neither the
non-conforming element nor any element after it is executed. -/
theorem invalid_work_unit_aborts_stage (nbProcs : Nat) (pre post : List WorkUnit)
    (bad : WorkUnit) (hpre : ∀ w ∈ pre, w.isWorkflow = true)
    (hbad : bad.isWorkflow = false) :
    dispatch nbProcs [Stage.many (pre ++ bad :: post)] =
      (eventsOf nbProcs pre, some .invalidWorkUnit) := by
  have h := dispatchUnits_first_bad nbProcs pre post bad hpre hbad
  simp [dispatch, dispatchStage, h]

/-- Witness for C1 amended at a concrete input. -/
theorem invalid_work_unit_aborts_stage_witness :
    dispatch 1 [Stage.many [WorkUnit.workflow 0, WorkUnit.other 1,
      WorkUnit.workflow 2]] = (eventsOf 1 [WorkUnit.workflow 0],
        some RunnerError.invalidWorkUnit) :=
  invalid_work_unit_aborts_stage 1 [WorkUnit.workflow 0] [WorkUnit.workflow 2]
    (WorkUnit.other 1) (by decide) (by decide)

/-- C6: the assembled workflow list per scope — with first-level-only it is
exactly the three first-level stages (the group-level stage is absent); with
group-level-only it is exactly the group-level stage; with full scope all
four stages appear in the fixed order preprocessing, run-level,
subject-level, group-level. -/
theorem stage_sequencer_scope (p : PipelineModel) :
    buildWorkflowList p true false = [p.preprocessing, p.runLevel, p.subjectLevel] ∧
    buildWorkflowList p false true = [p.groupLevel] ∧
    buildWorkflowList p false false =
      [p.preprocessing, p.runLevel, p.subjectLevel, p.groupLevel] :=
  ⟨rfl, rfl, rfl⟩

/-- C7: starting with both first-level-only and group-level-only set fails
with the invalid-scope error and an empty execution trace — no stage is
assembled or executed. -/
theorem both_scope_flags_invalid (p : PipelineModel) (nbProcs : Nat) :
    runnerStart p nbProcs true true = ([], some RunnerError.invalidScope) :=
  rfl

/-- Every event produced by one stage uses the configured strategy. -/
lemma dispatchStage_strategy (nbProcs : Nat) (s : Stage) :
    ∀ e ∈ (dispatchStage nbProcs s).1, e.2 = runStrategy nbProcs := by
  cases s with
  | absent => simp [dispatchStage]
  | single w =>
    cases w with
    | workflow id => simp [dispatchStage]
    | other id => simp [dispatchStage]
  | many ws =>
    induction ws with
    | nil => simp [dispatchStage, dispatchUnits]
    | cons w ws ih =>
      cases w with
      | other id => simp [dispatchStage, dispatchUnits]
      | workflow id =>
        intro e he
        simp only [dispatchStage, dispatchUnits, List.mem_cons] at he
        rcases he with rfl | he
        · rfl
        · exact ih e he

/-- C8: dispatch is strictly sequential across stages and uses one strategy
for every unit: every executed event runs with the multi-worker strategy
capped at `nbProcs` workers when `nbProcs > 1` and sequentially otherwise,
and when no error occurs the execution trace is exactly the concatenation of
the per-stage traces in stage order (stage N+1 contributes nothing before
stage N is complete). -/
theorem dispatch_sequential_with_strategy (nbProcs : Nat) (stages : List Stage) :
    (∀ e ∈ (dispatch nbProcs stages).1,
      e.2 = if nbProcs > 1 then RunStrategy.multiProc nbProcs
            else RunStrategy.sequential) ∧
    ((dispatch nbProcs stages).2 = none →
      (dispatch nbProcs stages).1 =
        (stages.map (fun s => (dispatchStage nbProcs s).1)).flatten) := by
  induction stages with
  | nil => exact ⟨by simp [dispatch], by simp [dispatch]⟩
  | cons s rest ih =>
    constructor
    · intro e he
      simp only [dispatch] at he
      cases herr : (dispatchStage nbProcs s).2 with
      | some err =>
        rw [herr] at he
        simp only at he
        exact dispatchStage_strategy nbProcs s e he
      | none =>
        rw [herr] at he
        simp only [List.mem_append] at he
        rcases he with he | he
        · exact dispatchStage_strategy nbProcs s e he
        · exact ih.1 e he
    · intro hnone
      simp only [dispatch] at hnone ⊢
      cases herr : (dispatchStage nbProcs s).2 with
      | some err => rw [herr] at hnone; simp at hnone
      | none =>
        rw [herr] at hnone
        have h2 : (dispatch nbProcs rest).2 = none := hnone
        simp only [List.map_cons, List.flatten_cons]
        exact congrArg (fun t => (dispatchStage nbProcs s).1 ++ t) (ih.2 h2)

/-- Witness for C8 at a concrete input: two stages, three workflows,
parallelism 2. -/
theorem dispatch_sequential_with_strategy_witness :
    (∀ e ∈ (dispatch 2 [Stage.single (WorkUnit.workflow 0),
        Stage.many [WorkUnit.workflow 1, WorkUnit.workflow 2]]).1,
      e.2 = if 2 > 1 then RunStrategy.multiProc 2 else RunStrategy.sequential) ∧
    (dispatch 2 [Stage.single (WorkUnit.workflow 0),
        Stage.many [WorkUnit.workflow 1, WorkUnit.workflow 2]]).1 =
      ([Stage.single (WorkUnit.workflow 0),
        Stage.many [WorkUnit.workflow 1, WorkUnit.workflow 2]].map
          (fun s => (dispatchStage 2 s).1)).flatten :=
  ⟨(dispatch_sequential_with_strategy 2 _).1,
    (dispatch_sequential_with_strategy 2 _).2 (by decide)⟩

/-- C3: team assignment with a key absent from the registry fails with the
unknown-team error; with a key the registry maps to the "no implementation"
marker it fails with the not-implemented error; with a key mapped to a class
name it succeeds and installs a fresh pipeline instance of that class. -/
theorem team_resolution (registry : List (String × Option String))
    (st : RunnerState) (value : String) :
    (registry.lookup value = none →
      (teamIdSetter registry st value).2 = some (.unknownTeam value)) ∧
    (registry.lookup value = some none →
      (teamIdSetter registry st value).2 = some (.notImplementedTeam value)) ∧
    (∀ c, registry.lookup value = some (some c) →
      teamIdSetter registry st value =
        ({ team_id := value, pipeline := some ⟨c⟩ }, none)) := by
  refine ⟨fun h => ?_, fun h => ?_, fun c h => ?_⟩ <;>
    simp [teamIdSetter, h]

/-- Witness for C3 at a concrete registry
`[("001", some "PipelineTeam001"), ("002", none)]`: key "xyz" is unknown,
key "002" is unimplemented, key "001" resolves to a fresh instance. -/
theorem team_resolution_witness :
    (teamIdSetter [("001", some "PipelineTeam001"), ("002", none)]
      { team_id := "", pipeline := none } "xyz").2 = some (.unknownTeam "xyz") ∧
    (teamIdSetter [("001", some "PipelineTeam001"), ("002", none)]
      { team_id := "", pipeline := none } "002").2 =
        some (.notImplementedTeam "002") ∧
    teamIdSetter [("001", some "PipelineTeam001"), ("002", none)]
      { team_id := "", pipeline := none } "001" =
        ({ team_id := "001", pipeline := some ⟨"PipelineTeam001"⟩ }, none) :=
  ⟨(team_resolution _ _ "xyz").1 (by decide),
    (team_resolution _ _ "002").2.1 (by decide),
    (team_resolution _ _ "001").2.2 "PipelineTeam001" (by decide)⟩

/-- C9: the audit returns exactly the expected paths that do not exist, in
order (an order-preserving subsequence of the expected list whose members
are exactly the absent expected files), the empty list when all expected
files exist; the first-level audit covers the concatenation of
preprocessing, run-level and subject-level expected outputs and the
group-level audit covers the group-level expected outputs. -/
theorem audit_reports_missing_files (isfile : String → Bool) :
    (∀ files : List String,
      (missingFiles isfile files).Sublist files ∧
      (∀ f, f ∈ missingFiles isfile files ↔ f ∈ files ∧ isfile f = false) ∧
      ((∀ f ∈ files, isfile f = true) → missingFiles isfile files = [])) ∧
    (∀ p : PipelineModel,
      getMissingFirstLevelOutputs p isfile =
        missingFiles isfile
          (p.preprocessingOutputs ++ p.runLevelOutputs ++ p.subjectLevelOutputs) ∧
      getMissingGroupLevelOutputs p isfile =
        missingFiles isfile p.groupLevelOutputs) := by
  refine ⟨fun files => ⟨List.filter_sublist files, fun f => ?_, fun h => ?_⟩,
    fun p => ⟨rfl, rfl⟩⟩
  · simp [missingFiles]
  · rw [missingFiles, List.filter_eq_nil_iff]
    intro f hf
    simp [h f hf]

/-- Witness for C9 at a concrete filesystem where only "a" exists: expected
files `["a","b"]` yield the missing list `["b"]`, and expected files `["a"]`
yield the empty missing list. -/
theorem audit_reports_missing_files_witness :
    (Narps.missingFiles (fun f => f == "a") ["a", "b"]).Sublist ["a", "b"] ∧
    ("b" ∈ missingFiles (fun f => f == "a") ["a", "b"] ↔
      "b" ∈ ["a", "b"] ∧ (("b" : String) == "a") = false) ∧
    missingFiles (fun f => f == "a") ["a"] = [] :=
  ⟨((audit_reports_missing_files (fun f => f == "a")).1 ["a", "b"]).1,
    ((audit_reports_missing_files (fun f => f == "a")).1 ["a", "b"]).2.1 "b",
    ((audit_reports_missing_files (fun f => f == "a")).1 ["a"]).2.2 (by decide)⟩

/-- C10: team assignment is not atomic on failure — whenever the `team_id`
setter raises, the stored team id has already been updated to the new value
while the pipeline is left as it was before the assignment (`None` right
after construction, or the previous team's instance on reassignment). -/
theorem team_assignment_not_atomic (registry : List (String × Option String))
    (st : RunnerState) (value : String)
    (h : (teamIdSetter registry st value).2.isSome) :
    (teamIdSetter registry st value).1.team_id = value ∧
    (teamIdSetter registry st value).1.pipeline = st.pipeline := by
  cases hl : registry.lookup value with
  | none => simp [teamIdSetter, hl]
  | some v =>
    cases v with
    | none => simp [teamIdSetter, hl]
    | some c =>
      rw [show (teamIdSetter registry st value).2 = none from by
        simp [teamIdSetter, hl]] at h
      simp at h

/-- Witness for C10 at a concrete input: reassigning from team "001" (whose
instance is installed) to the unknown key "bad" raises, leaves the old
pipeline instance in place, and has already stored the new team id. -/
theorem team_assignment_not_atomic_witness :
    (teamIdSetter [("001", some "PipelineTeam001")]
      { team_id := "001", pipeline := some ⟨"PipelineTeam001"⟩ }
      "bad").1.team_id = "bad" ∧
    (teamIdSetter [("001", some "PipelineTeam001")]
      { team_id := "001", pipeline := some ⟨"PipelineTeam001"⟩ }
      "bad").1.pipeline = some ⟨"PipelineTeam001"⟩ :=
  team_assignment_not_atomic [("001", some "PipelineTeam001")]
    { team_id := "001", pipeline := some ⟨"PipelineTeam001"⟩ } "bad" (by decide)

end Narps
